import Mathlib

/-!
Shallow embedding of `demo.py` (Employment_Certification): a mail-merge
utility that fills an employment-certificate template for each student in a
roster, using per-student records from a spreadsheet and random business days
of July 2025.

Text is modelled as `List Char`; a docx paragraph is a list of runs, each run
carrying text and the font attributes `demo.py` touches (name, size in points,
east-Asian name).  Python's `str.replace`/`in` are modelled by `replaceAll`/
`containsSub`, and `datetime.weekday` by Sakamoto's day-of-week algorithm
(Monday = 0, as in Python).
-/

/-- A calendar date as Python's `datetime` exposes it (year, month, day). -/
structure PyDate where
  year : Nat
  month : Nat
  day : Nat
deriving DecidableEq, Repr

/-- Sakamoto's day-of-week table, one offset per month. -/
def sakamotoTable : List Nat := [0, 3, 2, 5, 0, 3, 5, 1, 4, 6, 2, 4]

/-- Model of Python `datetime(y, m, d).weekday()`: Monday = 0 … Sunday = 6,
computed by Sakamoto's algorithm (shifted from its Sunday = 0 convention). -/
def pyWeekday (y m d : Nat) : Nat :=
  let y' := if m < 3 then y - 1 else y
  let t := sakamotoTable.getD (m - 1) 0
  ((y' + y' / 4 - y' / 100 + y' / 400 + t + d) % 7 + 6) % 7

/-- Number of days of month `m` of year `y` (Gregorian); models the range of
days for which Python's `datetime(y, m, i)` does not raise `ValueError`. -/
def daysInMonth (y m : Nat) : Nat :=
  if m = 2 then
    if y % 4 = 0 ∧ (y % 100 ≠ 0 ∨ y % 400 = 0) then 29 else 28
  else if m = 4 ∨ m = 6 ∨ m = 9 ∨ m = 11 then 30
  else 31

/-- `get_workdays` from `demo.py`: the business days of July 2025, split into
the first half (days 1–15) and the second half (days 16–31).  The first loop
walks `start_date + timedelta(days=i)` for `i in range(15)`; the second walks
`i in range(16, 32)`, stopping (`break`) at the first invalid day — modelled
by `takeWhile`, though July has 31 days so it never triggers. -/
def get_workdays : List PyDate × List PyDate :=
  let first_half_workdays :=
    (List.range 15).filterMap fun i =>
      let d : PyDate := ⟨2025, 7, 1 + i⟩
      if pyWeekday d.year d.month d.day < 5 then some d else none
  let second_half_workdays :=
    ((List.range' 16 16).takeWhile fun i => i ≤ daysInMonth 2025 7).filterMap
      fun i =>
        if pyWeekday 2025 7 i < 5 then some (⟨2025, 7, i⟩ : PyDate) else none
  (first_half_workdays, second_half_workdays)

/-- Python substring test `needle in hay` on text modelled as `List Char`. -/
def containsSub : List Char → List Char → Bool
  | [], needle => needle.isPrefixOf []
  | c :: t, needle => needle.isPrefixOf (c :: t) || containsSub t needle

/-- Scanner of `replaceAll`: while `skip` is positive the character belongs
to an occurrence already replaced and is dropped; at `skip = 0`, a match of
`old` at the current position emits `new` and schedules the remaining
`old.length - 1` matched characters for dropping. -/
def replaceAllAux (old new : List Char) : List Char → Nat → List Char
  | [], _ => []
  | _ :: t, skip + 1 => replaceAllAux old new t skip
  | c :: t, 0 =>
    if old ≠ [] ∧ old.isPrefixOf (c :: t) then
      new ++ replaceAllAux old new t (old.length - 1)
    else
      c :: replaceAllAux old new t 0

/-- Python `hay.replace(old, new)`: replace every occurrence of `old` in
`hay` by `new`, scanning left to right, non-overlapping.  (`demo.py` only
calls `str.replace` with the three fixed non-empty markers, so the
empty-pattern corner of Python's `replace` is irrelevant.) -/
def replaceAll (old new hay : List Char) : List Char :=
  replaceAllAux old new hay 0

/-- Zero-pad a number to two digits, as `strftime`'s `%m`/`%d` do. -/
def pad2 (n : Nat) : List Char :=
  if n < 10 then '0' :: (Nat.repr n).data else (Nat.repr n).data

/-- `d.strftime('%Y年%m月%d日')` from `demo.py` (all years in this program
are four-digit, so `%Y` is the plain decimal year). -/
def strftimeYMD (d : PyDate) : List Char :=
  (Nat.repr d.year).data ++ "年".data ++ pad2 d.month ++ "月".data ++
    pad2 d.day ++ "日".data

/-- The font attributes `replace_placeholders` touches on a run: font name,
size in points, and the `w:eastAsia` font name. -/
structure Font where
  name : Option String := none
  size : Option Nat := none
  eastAsia : Option String := none
deriving DecidableEq, Repr

/-- A docx run: a piece of text with its font attributes. -/
structure Run where
  text : List Char
  font : Font := {}
deriving DecidableEq, Repr

/-- A docx paragraph: a list of runs. -/
structure Paragraph where
  runs : List Run
deriving DecidableEq, Repr

/-- `para.text` (read): concatenation of the texts of the runs. -/
def Paragraph.text (p : Paragraph) : List Char :=
  (p.runs.map Run.text).flatten

/-- `para.text = s` (write): python-docx clears all runs and adds a single
run holding `s` with no direct formatting. -/
def Paragraph.setText (_p : Paragraph) (s : List Char) : Paragraph :=
  { runs := [{ text := s }] }

/-- First marker of `target_texts` in `demo.py` (the identity block). -/
def target_text0 : List Char :=
  "****，男/女，系湖南理工学院信息科学与工程学院*****专业2025届毕业生（身份证号：******）".data

/-- Second marker of `target_texts` in `demo.py` (the join date). -/
def target_text1 : List Char := "**年**月**日".data

/-- Third marker of `target_texts` in `demo.py` (the issue date; the gaps
are three ASCII spaces each). -/
def target_text2 : List Char := "年   月   日".data

/-- `target_texts` from `demo.py`. -/
def target_texts : List (List Char) :=
  [target_text0, target_text1, target_text2]

/-- The `new_text` f-string of `demo.py` line 72, interpolating name,
gender, major and identity number into the identity sentence. -/
def identity_new_text (name gender major id_card : List Char) : List Char :=
  name ++ "，".data ++ gender ++ "，系湖南理工学院信息科学与工程学院".data ++
    major ++ "专业2025届毕业生（身份证号：".data ++ id_card ++ "）".data

/-- The font forced onto the runs of a matched paragraph: 宋体, 16 pt
(`Pt(16)`), east-Asian name 宋体. -/
def songti16 : Font :=
  { name := some "宋体", size := some 16, eastAsia := some "宋体" }

/-- One `if target_texts[i] in para.text: para.text = para.text.replace(…)`
block of `replace_placeholders`. -/
def apply_marker (t s : List Char) (q : Paragraph) : Paragraph :=
  if containsSub q.text t then q.setText (replaceAll t s q.text) else q

/-- `replace_placeholders`, restricted to one paragraph: if the paragraph
text contains any marker, each of the three markers that is present in the
(successively updated) text is replaced, and every remaining run's font is
normalized; otherwise the paragraph is returned untouched. -/
def replace_placeholders_para (name gender id_card major : List Char)
    (join_date issue_date : PyDate) (para : Paragraph) : Paragraph :=
  if target_texts.any (fun t => containsSub para.text t) then
    { runs :=
        (apply_marker target_text2 (strftimeYMD issue_date)
          (apply_marker target_text1 (strftimeYMD join_date)
            (apply_marker target_text0
              (identity_new_text name gender major id_card) para))).runs.map
          fun r => { r with font := songti16 } }
  else para

/-- `replace_placeholders` from `demo.py`: the per-paragraph transformation
applied to every paragraph of the document. -/
def replace_placeholders (doc : List Paragraph)
    (name gender id_card major : List Char)
    (join_date issue_date : PyDate) : List Paragraph :=
  doc.map (replace_placeholders_para name gender id_card major
    join_date issue_date)

/-- Characters removed by Python `str.strip()` (the whitespace characters
relevant to text files: space, tab, newline, carriage return, vertical tab,
form feed, plus the common non-ASCII spaces NBSP and ideographic space). -/
def isPySpace (c : Char) : Bool :=
  c = ' ' || c = '\t' || c = '\n' || c = '\r' || c = '\x0b' || c = '\x0c' ||
    c = ' ' || c = '　'

/-- Python `line.strip()`: drop leading and trailing whitespace. -/
def pyStrip (s : List Char) : List Char :=
  ((s.dropWhile isPySpace).reverse.dropWhile isPySpace).reverse

/-- `read_name_list` from `demo.py`: the comprehension
`[line.strip() for line in f if line.strip()]` over the lines of the file
(a line's content, including any trailing newline, is one `List Char`). -/
def read_name_list (lines : List (List Char)) : List (List Char) :=
  lines.filterMap fun line =>
    if (pyStrip line).isEmpty then none else some (pyStrip line)

/-- One row of the spreadsheet, with the columns `read_student_info` reads:
姓名 (name), 性别 (gender), 身份证号 (identity number), 专业 (major). -/
structure XlsxRow where
  name : List Char
  gender : List Char
  id_card : List Char
  major : List Char
deriving DecidableEq, Repr

/-- The per-student record stored under the name key:
性别 (gender), 身份证号 (identity number), 专业 (major). -/
structure StudentInfo where
  gender : List Char
  id_card : List Char
  major : List Char
deriving DecidableEq, Repr

/-- `read_student_info` from `demo.py`: fold the rows in order into a
dictionary; `student_info[name] = {...}` overwrites, so a later row with the
same name replaces the earlier one. -/
def read_student_info (rows : List XlsxRow) : List Char → Option StudentInfo :=
  rows.foldl
    (fun dict row => fun n =>
      if n == row.name then some ⟨row.gender, row.id_card, row.major⟩
      else dict n)
    (fun _ => none)

/-- Observable per-roster-name outcome of `process_certificates`: either the
warning print for a missing record, or the saved document `<name>.doc`. -/
inductive RunEvent
  | warning (name : List Char)
  | output (name : List Char) (doc : List Paragraph)
deriving DecidableEq, Repr

/-- Whether an event is the warning for `n`. -/
def RunEvent.isWarningFor (n : List Char) : RunEvent → Bool
  | .warning m => m == n
  | .output _ _ => false

/-- Whether an event is an output document for `n`. -/
def RunEvent.isOutputFor (n : List Char) : RunEvent → Bool
  | .warning _ => false
  | .output m _ => m == n

/-- The per-student loop of `process_certificates`: for each roster name in
order, a missing record yields the warning and a `continue`; otherwise the
template is reloaded fresh, dates are drawn (`draw k` models the pair of
`random.choice` results of iteration `k`), placeholders are replaced, and
the document is saved under the student's name. -/
def process_loop (student_info : List Char → Option StudentInfo)
    (draw : Nat → PyDate × PyDate) (template : List Paragraph) :
    Nat → List (List Char) → List RunEvent
  | _, [] => []
  | k, name :: rest =>
    (match student_info name with
      | none => RunEvent.warning name
      | some info =>
        RunEvent.output name
          (replace_placeholders template name info.gender info.id_card
            info.major (draw k).1 (draw k).2)) ::
      process_loop student_info draw template (k + 1) rest

/-- `process_certificates` from `demo.py`, reduced to its observable
per-student events (prints of warnings and saves of filled documents);
loading of the roster, spreadsheet and template and the date pools are
parameters resolved by the callers it delegates to. -/
def process_certificates (names : List (List Char))
    (student_info : List Char → Option StudentInfo)
    (draw : Nat → PyDate × PyDate) (template : List Paragraph) :
    List RunEvent :=
  process_loop student_info draw template 0 names

/-- If `old` does not occur in `hay`, Python's `replace` returns `hay`. -/
theorem replaceAll_of_not_contains (old new : List Char) :
    ∀ hay : List Char, containsSub hay old = false →
      replaceAll old new hay = hay := by
  intro hay
  induction hay with
  | nil => intro _; rfl
  | cons c t ih =>
    intro h
    simp only [containsSub, Bool.or_eq_false_iff] at h
    show replaceAllAux old new (c :: t) 0 = c :: t
    rw [replaceAllAux]
    rw [if_neg fun hand => by simp [h.1] at hand]
    exact congrArg (c :: ·) (ih h.2)

/-- Writing `para.text` leaves exactly that text in the paragraph. -/
theorem setText_text (p : Paragraph) (s : List Char) : (p.setText s).text = s := by
  simp [Paragraph.setText, Paragraph.text]

/-- Overwriting every run's font does not change the paragraph text. -/
theorem text_map_font (q : Paragraph) (f : Font) :
    Paragraph.text ⟨q.runs.map fun r => { r with font := f }⟩ = q.text := by
  simp only [Paragraph.text, List.map_map]
  rfl

/-- The text after one marker block is always the `replace` of the text
before it (a no-op when the marker is absent). -/
theorem apply_marker_text (t s : List Char) (q : Paragraph) :
    (apply_marker t s q).text = replaceAll t s q.text := by
  unfold apply_marker
  by_cases hc : containsSub q.text t = true
  · rw [if_pos hc, setText_text]
  · rw [if_neg hc]
    exact (replaceAll_of_not_contains _ _ _ (by simpa using hc)).symm

/-- A marker block whose marker is absent leaves the paragraph unchanged. -/
theorem apply_marker_of_not_contains (t s : List Char) (q : Paragraph)
    (h : containsSub q.text t = false) : apply_marker t s q = q := by
  unfold apply_marker
  rw [if_neg (by simp [h])]

/-- A marker block keeps a single-run paragraph single-run. -/
theorem apply_marker_runs_length (t s : List Char) (q : Paragraph)
    (h : q.runs.length = 1) : (apply_marker t s q).runs.length = 1 := by
  unfold apply_marker
  split
  · rfl
  · exact h

/-- Net effect of `replace_placeholders` on one paragraph's text: the three
markers are replaced in program order, each against the already-updated
text. -/
theorem replace_placeholders_para_text (name gender id_card major : List Char)
    (join_date issue_date : PyDate) (p : Paragraph) :
    (replace_placeholders_para name gender id_card major join_date issue_date
        p).text =
      replaceAll target_text2 (strftimeYMD issue_date)
        (replaceAll target_text1 (strftimeYMD join_date)
          (replaceAll target_text0
            (identity_new_text name gender major id_card) p.text)) := by
  unfold replace_placeholders_para
  by_cases hA : (target_texts.any fun t => containsSub p.text t) = true
  · rw [if_pos hA]
    rw [text_map_font, apply_marker_text, apply_marker_text, apply_marker_text]
  · rw [if_neg hA]
    have h' : ∀ t ∈ target_texts, containsSub p.text t = false := by
      intro t ht
      by_contra hne
      exact hA (List.any_eq_true.mpr
        ⟨t, ht, by revert hne; cases containsSub p.text t <;> simp⟩)
    rw [replaceAll_of_not_contains _ _ _ (h' target_text0 (by simp [target_texts])),
      replaceAll_of_not_contains _ _ _ (h' target_text1 (by simp [target_texts])),
      replaceAll_of_not_contains _ _ _ (h' target_text2 (by simp [target_texts]))]

/-- The orchestrator loop emits exactly one event per roster name. -/
theorem process_loop_length (si : List Char → Option StudentInfo)
    (draw : Nat → PyDate × PyDate) (tmpl : List Paragraph) (k : Nat)
    (names : List (List Char)) :
    (process_loop si draw tmpl k names).length = names.length := by
  induction names generalizing k with
  | nil => rfl
  | cons a t ih => cases hsa : si a <;> simp [process_loop, hsa, ih]

/-- Warnings for `n` in the orchestrator loop: one per occurrence of `n` in
the roster when `n` has no record, none otherwise. -/
theorem process_loop_warning_count (si : List Char → Option StudentInfo)
    (draw : Nat → PyDate × PyDate) (tmpl : List Paragraph) (n : List Char)
    (k : Nat) (names : List (List Char)) :
    ((process_loop si draw tmpl k names).filter
        (RunEvent.isWarningFor n)).length =
      if si n = none then names.count n else 0 := by
  induction names generalizing k with
  | nil => simp [process_loop, List.count_nil]
  | cons a t ih =>
    by_cases han : a = n
    · subst han
      cases hsa : si a with
      | none =>
        simp [process_loop, hsa, RunEvent.isWarningFor, List.filter_cons,
          List.count_cons, ih]
      | some info =>
        simp [process_loop, hsa, RunEvent.isWarningFor, List.filter_cons,
          List.count_cons, ih]
    · have hban : (a == n) = false := by simp [han]
      cases hsa : si a with
      | none =>
        simp [process_loop, hsa, RunEvent.isWarningFor, List.filter_cons,
          List.count_cons, hban, ih]
      | some info =>
        simp [process_loop, hsa, RunEvent.isWarningFor, List.filter_cons,
          List.count_cons, hban, ih]

/-- Output documents for `n` in the orchestrator loop: one per occurrence of
`n` in the roster when `n` has a record, none otherwise. -/
theorem process_loop_output_count (si : List Char → Option StudentInfo)
    (draw : Nat → PyDate × PyDate) (tmpl : List Paragraph) (n : List Char)
    (k : Nat) (names : List (List Char)) :
    ((process_loop si draw tmpl k names).filter
        (RunEvent.isOutputFor n)).length =
      if (si n).isSome then names.count n else 0 := by
  induction names generalizing k with
  | nil => simp [process_loop, List.count_nil]
  | cons a t ih =>
    by_cases han : a = n
    · subst han
      cases hsa : si a with
      | none =>
        simp [process_loop, hsa, RunEvent.isOutputFor, List.filter_cons,
          List.count_cons, ih]
      | some info =>
        simp [process_loop, hsa, RunEvent.isOutputFor, List.filter_cons,
          List.count_cons, ih]
    · have hban : (a == n) = false := by simp [han]
      cases hsa : si a with
      | none =>
        simp [process_loop, hsa, RunEvent.isOutputFor, List.filter_cons,
          List.count_cons, hban, ih]
      | some info =>
        simp [process_loop, hsa, RunEvent.isOutputFor, List.filter_cons,
          List.count_cons, hban, ih]

/-- The dictionary built by `read_student_info` answers with the record of
the last row whose 姓名 equals the key (`find?` on the reversed rows),
falling back to the initial dictionary. -/
theorem read_student_info_foldl (rows : List XlsxRow)
    (dict : List Char → Option StudentInfo) (n : List Char) :
    rows.foldl
        (fun d row => fun m =>
          if m == row.name then some ⟨row.gender, row.id_card, row.major⟩
          else d m)
        dict n =
      (rows.reverse.find? fun r => n == r.name).elim (dict n)
        (fun r => some ⟨r.gender, r.id_card, r.major⟩) := by
  induction rows generalizing dict with
  | nil => rfl
  | cons r t ih =>
    rw [List.foldl_cons, ih, List.reverse_cons, List.find?_append]
    cases hf : t.reverse.find? fun x => n == x.name with
    | some r' => simp [hf]
    | none =>
      cases hn : (n == r.name) with
      | true => simp [hf, List.find?, hn]
      | false => simp [hf, List.find?, hn]

/-- C3: in `get_workdays`, both pools hold only weekdays of July 2025 (no
Saturday/Sunday), the first pool exactly the weekdays among days 1–15, the
second exactly the weekdays among days 16–31, each in chronological order. -/
theorem get_workdays_weekday_partition :
    (∀ d ∈ get_workdays.1, d.year = 2025 ∧ d.month = 7 ∧ 1 ≤ d.day ∧
        d.day ≤ 15 ∧ pyWeekday d.year d.month d.day < 5) ∧
    (∀ d ∈ get_workdays.2, d.year = 2025 ∧ d.month = 7 ∧ 16 ≤ d.day ∧
        d.day ≤ 31 ∧ pyWeekday d.year d.month d.day < 5) ∧
    (∀ day, day < 32 →
        ((1 ≤ day ∧ day ≤ 15 ∧ pyWeekday 2025 7 day < 5) →
          (⟨2025, 7, day⟩ : PyDate) ∈ get_workdays.1) ∧
        ((16 ≤ day ∧ pyWeekday 2025 7 day < 5) →
          (⟨2025, 7, day⟩ : PyDate) ∈ get_workdays.2)) ∧
    List.Chain' (fun a b : PyDate => a.day < b.day) get_workdays.1 ∧
    List.Chain' (fun a b : PyDate => a.day < b.day) get_workdays.2 := by
  have h1 : get_workdays.1 =
      [⟨2025, 7, 1⟩, ⟨2025, 7, 2⟩, ⟨2025, 7, 3⟩, ⟨2025, 7, 4⟩, ⟨2025, 7, 7⟩,
        ⟨2025, 7, 8⟩, ⟨2025, 7, 9⟩, ⟨2025, 7, 10⟩, ⟨2025, 7, 11⟩,
        ⟨2025, 7, 14⟩, ⟨2025, 7, 15⟩] := by decide
  have h2 : get_workdays.2 =
      [⟨2025, 7, 16⟩, ⟨2025, 7, 17⟩, ⟨2025, 7, 18⟩, ⟨2025, 7, 21⟩,
        ⟨2025, 7, 22⟩, ⟨2025, 7, 23⟩, ⟨2025, 7, 24⟩, ⟨2025, 7, 25⟩,
        ⟨2025, 7, 28⟩, ⟨2025, 7, 29⟩, ⟨2025, 7, 30⟩, ⟨2025, 7, 31⟩] := by
    decide
  refine ⟨?_, ?_, ?_, ?_, ?_⟩
  · decide
  · decide
  · decide
  · rw [h1]; simp [List.chain'_cons]
  · rw [h2]; simp [List.chain'_cons]

/-- Witness for C3 at day 3 (a Thursday of the first half). -/
theorem get_workdays_weekday_partition_witness :
    (⟨2025, 7, 3⟩ : PyDate) ∈ get_workdays.1 :=
  (get_workdays_weekday_partition.2.2.1 3 (by decide)).1 (by decide)

/-- C4: for July 2025 the first pool has exactly 11 dates, and the second pool
is exactly the weekday dates among July 16–31. -/
theorem get_workdays_july_counts :
    get_workdays.1.length = 11 ∧
    get_workdays.2 =
      ((List.range' 16 16).filter fun i => pyWeekday 2025 7 i < 5).map
        fun i => (⟨2025, 7, i⟩ : PyDate) := by
  decide

/-- C1: for any template document and the FillRequest (张三, 男, 软件工程,
430XXXXXXXXXXXXXXX, join 2025-07-03, issue 2025-07-17), the filler rewrites
each paragraph so that the identity marker becomes exactly the filled
identity sentence, the join-date marker becomes exactly 2025年07月03日, and
the issue-date marker becomes exactly 2025年07月17日 (each a no-op on
paragraphs not containing it). -/
theorem replace_placeholders_zhangsan_texts (doc : List Paragraph) :
    (replace_placeholders doc "张三".data "男".data "430XXXXXXXXXXXXXXX".data
        "软件工程".data ⟨2025, 7, 3⟩ ⟨2025, 7, 17⟩).map Paragraph.text =
      doc.map fun p =>
        replaceAll target_text2 "2025年07月17日".data
          (replaceAll target_text1 "2025年07月03日".data
            (replaceAll target_text0
              "张三，男，系湖南理工学院信息科学与工程学院软件工程专业2025届毕业生（身份证号：430XXXXXXXXXXXXXXX）".data
              p.text)) := by
  have hs : identity_new_text "张三".data "男".data "软件工程".data
      "430XXXXXXXXXXXXXXX".data =
      "张三，男，系湖南理工学院信息科学与工程学院软件工程专业2025届毕业生（身份证号：430XXXXXXXXXXXXXXX）".data := by
    decide
  have h1 : strftimeYMD ⟨2025, 7, 3⟩ = "2025年07月03日".data := by decide
  have h2 : strftimeYMD ⟨2025, 7, 17⟩ = "2025年07月17日".data := by decide
  unfold replace_placeholders
  rw [List.map_map]
  refine List.map_congr_left ?_
  intro p _
  show (replace_placeholders_para _ _ _ _ _ _ p).text = _
  rw [replace_placeholders_para_text, hs, h1, h2]

/-- C2: a paragraph whose text contains none of the three markers is
returned completely unchanged (same runs, same texts, same fonts): the
filler touches only marker-matching paragraphs. -/
theorem replace_placeholders_para_no_marker_untouched
    (name gender id_card major : List Char) (join_date issue_date : PyDate)
    (p : Paragraph) (h : ∀ t ∈ target_texts, containsSub p.text t = false) :
    replace_placeholders_para name gender id_card major join_date issue_date
      p = p := by
  have hA : ¬((target_texts.any fun t => containsSub p.text t) = true) := by
    simp only [List.any_eq_true, not_exists, not_and]
    intro t ht
    simp [h t ht]
  unfold replace_placeholders_para
  rw [if_neg hA]

/-- Witness for C2: a heading-like paragraph with no marker is untouched. -/
theorem replace_placeholders_para_no_marker_untouched_witness :
    replace_placeholders_para "张三".data "男".data "430XXXXXXXXXXXXXXX".data
        "软件工程".data ⟨2025, 7, 3⟩ ⟨2025, 7, 17⟩
        ⟨[⟨"湖南理工学院信息科学与工程学院".data, {}⟩]⟩ =
      ⟨[⟨"湖南理工学院信息科学与工程学院".data, {}⟩]⟩ :=
  replace_placeholders_para_no_marker_untouched _ _ _ _ _ _ _ (by decide)

/-- C5 counterexample: the replacements are not independent of the content
substituted for earlier markers.  With a paragraph containing the identity
marker followed by the join-date marker, and a name that itself equals the
join-date marker, independent replacement predicts the spliced-in name to
survive verbatim; the code instead re-replaces it with the join date, so the
output differs from the independent result. -/
theorem replace_placeholders_not_independent_cex :
    (replace_placeholders_para target_text1 "男".data "430".data
        "软件工程".data ⟨2025, 7, 3⟩ ⟨2025, 7, 17⟩
        ⟨[⟨target_text0 ++ target_text1, {}⟩]⟩).text ≠
      ("**年**月**日，男，系湖南理工学院信息科学与工程学院软件工程专业2025届毕业生（身份证号：430）".data ++
        "2025年07月03日".data) := by
  decide

/-- C5 (amended): for a paragraph containing more than one marker, all
matching replacements apply, but sequentially in the fixed order identity →
join date → issue date against the already-substituted text (not
independently: content spliced in for an earlier marker is subject to the
later replacements). -/
theorem replace_placeholders_multi_marker_sequential
    (name gender id_card major : List Char) (join_date issue_date : PyDate)
    (p : Paragraph)
    (_h : 1 < (target_texts.filter fun t => containsSub p.text t).length) :
    (replace_placeholders_para name gender id_card major join_date issue_date
        p).text =
      replaceAll target_text2 (strftimeYMD issue_date)
        (replaceAll target_text1 (strftimeYMD join_date)
          (replaceAll target_text0
            (identity_new_text name gender major id_card) p.text)) :=
  replace_placeholders_para_text name gender id_card major join_date
    issue_date p

/-- Witness for the amended C5 on a paragraph holding the identity marker
and the issue-date marker. -/
theorem replace_placeholders_multi_marker_sequential_witness :
    (replace_placeholders_para "李四".data "女".data "431".data "计算机".data
        ⟨2025, 7, 7⟩ ⟨2025, 7, 21⟩
        ⟨[⟨target_text0 ++ "，".data ++ target_text2, {}⟩]⟩).text =
      replaceAll target_text2 (strftimeYMD ⟨2025, 7, 21⟩)
        (replaceAll target_text1 (strftimeYMD ⟨2025, 7, 7⟩)
          (replaceAll target_text0
            (identity_new_text "李四".data "女".data "计算机".data "431".data)
            (Paragraph.text
              ⟨[⟨target_text0 ++ "，".data ++ target_text2, {}⟩]⟩))) :=
  replace_placeholders_multi_marker_sequential _ _ _ _ _ _ _ (by decide)

/-- C6: a roster name with no directory record produces exactly one warning
and no output document, the run is not aborted (one event per roster entry),
and a name that does have a record still gets one output per roster
occurrence. -/
theorem process_certificates_missing_name (names : List (List Char))
    (student_info : List Char → Option StudentInfo)
    (draw : Nat → PyDate × PyDate) (template : List Paragraph)
    (n m : List Char) (r : StudentInfo)
    (hn : student_info n = none) (hc : names.count n = 1)
    (hm : student_info m = some r) :
    ((process_certificates names student_info draw template).filter
        (RunEvent.isWarningFor n)).length = 1 ∧
    ((process_certificates names student_info draw template).filter
        (RunEvent.isOutputFor n)).length = 0 ∧
    (process_certificates names student_info draw template).length =
      names.length ∧
    ((process_certificates names student_info draw template).filter
        (RunEvent.isOutputFor m)).length = names.count m := by
  unfold process_certificates
  refine ⟨?_, ?_, process_loop_length _ _ _ _ _, ?_⟩
  · rw [process_loop_warning_count, if_pos hn, hc]
  · rw [process_loop_output_count]
    simp [hn]
  · rw [process_loop_output_count]
    simp [hm]

/-- Witness for C6: roster 张三 (missing), 李四 (present). -/
theorem process_certificates_missing_name_witness :
    ((process_certificates ["张三".data, "李四".data]
        (fun x =>
          if x == "李四".data then
            some (⟨"男".data, "430XXXXXXXXXXXXXXX".data, "软件工程".data⟩ :
              StudentInfo)
          else none)
        (fun _ => (⟨2025, 7, 3⟩, ⟨2025, 7, 17⟩)) []).filter
        (RunEvent.isWarningFor "张三".data)).length = 1 ∧
    ((process_certificates ["张三".data, "李四".data]
        (fun x =>
          if x == "李四".data then
            some (⟨"男".data, "430XXXXXXXXXXXXXXX".data, "软件工程".data⟩ :
              StudentInfo)
          else none)
        (fun _ => (⟨2025, 7, 3⟩, ⟨2025, 7, 17⟩)) []).filter
        (RunEvent.isOutputFor "张三".data)).length = 0 ∧
    (process_certificates ["张三".data, "李四".data]
        (fun x =>
          if x == "李四".data then
            some (⟨"男".data, "430XXXXXXXXXXXXXXX".data, "软件工程".data⟩ :
              StudentInfo)
          else none)
        (fun _ => (⟨2025, 7, 3⟩, ⟨2025, 7, 17⟩)) []).length =
      (["张三".data, "李四".data] : List (List Char)).length ∧
    ((process_certificates ["张三".data, "李四".data]
        (fun x =>
          if x == "李四".data then
            some (⟨"男".data, "430XXXXXXXXXXXXXXX".data, "软件工程".data⟩ :
              StudentInfo)
          else none)
        (fun _ => (⟨2025, 7, 3⟩, ⟨2025, 7, 17⟩)) []).filter
        (RunEvent.isOutputFor "李四".data)).length =
      (["张三".data, "李四".data] : List (List Char)).count "李四".data :=
  process_certificates_missing_name _ _ _ _ _ _
    ⟨"男".data, "430XXXXXXXXXXXXXXX".data, "软件工程".data⟩
    (by decide) (by decide) (by decide)

/-- C7: the roster loader returns exactly the input lines stripped of
surrounding whitespace, with lines that are empty after stripping removed,
in input order. -/
theorem read_name_list_strips_and_filters (lines : List (List Char)) :
    read_name_list lines = (lines.map pyStrip).filter fun s => !s.isEmpty := by
  induction lines with
  | nil => rfl
  | cons l t ih =>
    simp only [read_name_list] at ih ⊢
    cases h : (pyStrip l).isEmpty with
    | true =>
      rw [List.filterMap_cons_none (by rw [if_pos h]), List.map_cons,
        List.filter_cons_of_neg (by simp [h])]
      exact ih
    | false =>
      rw [List.filterMap_cons_some (by rw [if_neg (by simp [h])]),
        List.map_cons, List.filter_cons_of_pos (by simp [h])]
      exact congrArg (pyStrip l :: ·) ih

/-- C8: when a name occurs in more than one spreadsheet row, the directory
holds the record of the last such row (the first row of the reversed list),
and building the dictionary does not fail on the duplicates. -/
theorem read_student_info_last_row_wins (rows : List XlsxRow) (n : List Char)
    (h : 1 < (rows.filter fun r => n == r.name).length) :
    ∃ r, (rows.reverse.find? fun r => n == r.name) = some r ∧
      read_student_info rows n = some ⟨r.gender, r.id_card, r.major⟩ := by
  have hex : ∃ x ∈ rows.reverse, (n == x.name) = true := by
    have hne : (rows.filter fun r => n == r.name) ≠ [] := by
      intro he
      rw [he] at h
      exact absurd h (by simp)
    obtain ⟨x, hx⟩ := List.exists_mem_of_ne_nil _ hne
    exact ⟨x, List.mem_reverse.mpr (List.mem_filter.mp hx).1,
      (List.mem_filter.mp hx).2⟩
  have hsome : (rows.reverse.find? fun r => n == r.name).isSome :=
    List.find?_isSome.mpr hex
  obtain ⟨r, hr⟩ := Option.isSome_iff_exists.mp hsome
  refine ⟨r, hr, ?_⟩
  unfold read_student_info
  rw [read_student_info_foldl, hr]
  rfl

/-- Witness for C8: two rows for 张三; the second one wins. -/
theorem read_student_info_last_row_wins_witness :
    ∃ r, (([⟨"张三".data, "男".data, "430A".data, "软件工程".data⟩,
          ⟨"张三".data, "男".data, "430B".data, "通信工程".data⟩] :
          List XlsxRow).reverse.find? fun r => "张三".data == r.name) =
        some r ∧
      read_student_info
          [⟨"张三".data, "男".data, "430A".data, "软件工程".data⟩,
            ⟨"张三".data, "男".data, "430B".data, "通信工程".data⟩]
          "张三".data =
        some ⟨r.gender, r.id_card, r.major⟩ :=
  read_student_info_last_row_wins _ _ (by decide)

/-- C9: the filler checks the three markers in the fixed order identity →
join date → issue date against the already-substituted paragraph text
(first conjunct); consequently, text interpolated for an earlier marker
that itself contains a later marker substring is replaced again by that
later marker's replacement — run concretely with the name equal to the
join-date marker (second conjunct). -/
theorem replace_placeholders_sequential_resubstitution :
    (∀ (name gender id_card major : List Char)
        (join_date issue_date : PyDate) (p : Paragraph),
        (replace_placeholders_para name gender id_card major join_date
            issue_date p).text =
          replaceAll target_text2 (strftimeYMD issue_date)
            (replaceAll target_text1 (strftimeYMD join_date)
              (replaceAll target_text0
                (identity_new_text name gender major id_card) p.text))) ∧
    (replace_placeholders_para target_text1 "男".data "430".data
        "软件工程".data ⟨2025, 7, 3⟩ ⟨2025, 7, 17⟩
        ⟨[⟨target_text0, {}⟩]⟩).text =
      "2025年07月03日，男，系湖南理工学院信息科学与工程学院软件工程专业2025届毕业生（身份证号：430）".data :=
  ⟨replace_placeholders_para_text, by decide⟩

/-- C10: a paragraph whose text contains at least one marker ends up with
exactly one run, whose font name is 宋体, size 16 pt, east-Asian name
宋体 (the original run structure and formatting are not preserved). -/
theorem replace_placeholders_para_single_run_font
    (name gender id_card major : List Char) (join_date issue_date : PyDate)
    (p : Paragraph)
    (h : (target_texts.any fun t => containsSub p.text t) = true) :
    (replace_placeholders_para name gender id_card major join_date issue_date
        p).runs.length = 1 ∧
    ∀ r ∈ (replace_placeholders_para name gender id_card major join_date
        issue_date p).runs,
      r.font = { name := some "宋体", size := some 16,
                 eastAsia := some "宋体" } := by
  unfold replace_placeholders_para
  rw [if_pos h]
  constructor
  · dsimp only
    rw [List.length_map]
    by_cases h0 : containsSub p.text target_text0 = true
    · refine apply_marker_runs_length _ _ _ (apply_marker_runs_length _ _ _ ?_)
      unfold apply_marker
      rw [if_pos h0]
      rfl
    · rw [apply_marker_of_not_contains target_text0
        (identity_new_text name gender major id_card) p (by simpa using h0)]
      by_cases h1 : containsSub p.text target_text1 = true
      · refine apply_marker_runs_length _ _ _ ?_
        unfold apply_marker
        rw [if_pos h1]
        rfl
      · rw [apply_marker_of_not_contains target_text1 (strftimeYMD join_date)
          p (by simpa using h1)]
        have h2 : containsSub p.text target_text2 = true := by
          obtain ⟨t, ht, hct⟩ := List.any_eq_true.mp h
          simp only [target_texts, List.mem_cons, List.not_mem_nil,
            or_false] at ht
          rcases ht with rfl | rfl | rfl
          · exact absurd hct h0
          · exact absurd hct h1
          · exact hct
        unfold apply_marker
        rw [if_pos h2]
        rfl
  · intro r hr
    simp only [List.mem_map] at hr
    obtain ⟨r', _, rfl⟩ := hr
    rfl

/-- Witness for C10: a two-run paragraph holding the issue-date marker is
collapsed to a single run. -/
theorem replace_placeholders_para_single_run_font_witness :
    (replace_placeholders_para "张三".data "男".data "430XXXXXXXXXXXXXXX".data
        "软件工程".data ⟨2025, 7, 3⟩ ⟨2025, 7, 17⟩
        ⟨[⟨target_text2, {}⟩, ⟨"2025".data, {}⟩]⟩).runs.length = 1 :=
  (replace_placeholders_para_single_run_font _ _ _ _ _ _ _ (by decide)).1
